import Mathlib

/-!
Verification of the document-text-extraction core of the futuristic-minutes
repository.

Strings are modelled as `List Char` (sequences of Unicode scalar values);
a JavaScript string value `s` is embedded as `s.data`.  JavaScript regular
expression behaviour (`\s`, `.`, lazy quantifiers, global scanning with
`lastIndex`) is translated into explicit scanning functions below.  External
library calls (`file.text()`, pdf.js, mammoth) are modelled as oracle fields
of the request: either a decoded value or a thrown error message, mirroring
the `try/catch` structure of the source.
-/

/-- The JavaScript `\s` character class (also the set trimmed by
`String.prototype.trim`): tab, LF, VT, FF, CR, space, NBSP, Ogham space,
the U+2000–U+200A range, LS, PS, NNBSP, MMSP, ideographic space, BOM. -/
def wsNat (n : Nat) : Bool :=
  decide (n = 9 ∨ n = 10 ∨ n = 11 ∨ n = 12 ∨ n = 13 ∨ n = 32 ∨ n = 160 ∨
    n = 5760 ∨ (8192 ≤ n ∧ n ≤ 8202) ∨ n = 8232 ∨ n = 8233 ∨ n = 8239 ∨
    n = 8287 ∨ n = 12288 ∨ n = 65279)

/-- Whitespace test on characters, JavaScript `\s` semantics. -/
def jsIsWs (c : Char) : Bool := wsNat c.toNat

/-- JavaScript line terminators (the characters `.` does not match). -/
def isLineTermChar (c : Char) : Bool :=
  decide (c.toNat = 10 ∨ c.toNat = 13 ∨ c.toNat = 8232 ∨ c.toNat = 8233)

/-- ASCII letter, the `[a-zA-Z]` class. -/
def isAsciiLetter (c : Char) : Bool :=
  decide ((65 ≤ c.toNat ∧ c.toNat ≤ 90) ∨ (97 ≤ c.toNat ∧ c.toNat ≤ 122))

/-- ASCII digit, the `[0-9]` class. -/
def isDigitChar (c : Char) : Bool := decide (48 ≤ c.toNat ∧ c.toNat ≤ 57)

/-- The punctuation set `. , ! ? ; : ' " ( ) -` appearing in the source's
character classes. -/
def isPunctChar (c : Char) : Bool :=
  decide (c.toNat = 46 ∨ c.toNat = 44 ∨ c.toNat = 33 ∨ c.toNat = 63 ∨
    c.toNat = 59 ∨ c.toNat = 58 ∨ c.toNat = 39 ∨ c.toNat = 34 ∨
    c.toNat = 40 ∨ c.toNat = 41 ∨ c.toNat = 45)

/-- The validator's allowed class `[a-zA-Z0-9\s.,!?;:'"()-]` from
`isValidExtractedText` in src/lib/text-extraction.ts. -/
def isReadableChar (c : Char) : Bool :=
  isAsciiLetter c || isDigitChar c || jsIsWs c || isPunctChar c

/-- The blind-scan class `[a-zA-Z\s.,!?;:'"()-]` of Method 4 in
supabase/functions/parse-pdf/index.ts (note: no digits). -/
def isBlindChar (c : Char) : Bool :=
  isAsciiLetter c || jsIsWs c || isPunctChar c

/-- ASCII lowercasing, the effect of `toLowerCase` on the ASCII range
(sufficient for the `.txt`/`.pdf`/`.docx` suffix tests of the source). -/
def lowerChar (c : Char) : Char :=
  if 65 ≤ c.toNat ∧ c.toNat ≤ 90 then Char.ofNat (c.toNat + 32) else c

/-- Case-sensitive character comparison. -/
def eqCS (a b : Char) : Bool := a == b

/-- Case-insensitive character comparison (regex flag `i`, ASCII range). -/
def eqCI (a b : Char) : Bool := lowerChar a == lowerChar b

/-- Model of `String.prototype.trim`: drop JavaScript whitespace from both ends. -/
def jsTrim (l : List Char) : List Char :=
  ((l.dropWhile jsIsWs).reverse.dropWhile jsIsWs).reverse

/-- Helper for `.replace(/\s+/g, ' ')`: the Bool records whether the
previous character was whitespace (whose run has already emitted a space). -/
def collapseAux : List Char → Bool → List Char
  | [], _ => []
  | c :: cs, prev =>
    if jsIsWs c = true then
      if prev then collapseAux cs true else ' ' :: collapseAux cs true
    else c :: collapseAux cs false

/-- Model of `.replace(/\s+/g, ' ')`: each maximal whitespace run becomes one space. -/
def collapseWs (s : List Char) : List Char := collapseAux s false

/-- Model of `.replace(/[^\x20-\x7E]/g, ' ')`: non-printable characters to spaces. -/
def mapPrintable (s : List Char) : List Char :=
  s.map (fun c => if 32 ≤ c.toNat ∧ c.toNat ≤ 126 then c else ' ')

/-- Model of `Array.prototype.join(' ')`. -/
def joinSpace (rs : List (List Char)) : List Char := List.intercalate [' '] rs

/-- One or more ASCII letters present, the `/[a-zA-Z]/.test` check. -/
def hasLetter (w : List Char) : Bool := w.any isAsciiLetter

/-! ### Regex-scanning machinery for the edge-function cascade -/

/-- Does `pat` match at the head of the list, under comparison `eqc`? -/
def matchesHere (eqc : Char → Char → Bool) : List Char → List Char → Bool
  | [], _ => true
  | _ :: _, [] => false
  | p :: ps, c :: cs => eqc p c && matchesHere eqc ps cs

/-- Leftmost occurrence of `pat`: returns the part before the match and the
suffix starting at the match (the behaviour of a regex engine scanning for a
literal from index 0 upwards). -/
def splitOnPat (eqc : Char → Char → Bool) (pat : List Char) :
    List Char → Option (List Char × List Char)
  | [] => if matchesHere eqc pat [] then some ([], []) else none
  | c :: cs =>
    if matchesHere eqc pat (c :: cs) then some ([], c :: cs)
    else
      match splitOnPat eqc pat cs with
      | some (a, b) => some (c :: a, b)
      | none => none

/-- Global matching of `/op\s*.*?cl/s`-shaped patterns (`BT…ET`,
`stream…endstream`, `<<…>>`): each match runs from an occurrence of `op` to
the first occurrence of `cl` after it; scanning resumes past the match.  The
fuel argument bounds the recursion; `delimRegions` passes the input length, which
suffices since every match consumes at least one character. -/
def delimGo (eqc : Char → Char → Bool) (op cl : List Char) :
    Nat → List Char → List (List Char)
  | 0, _ => []
  | fuel + 1, s =>
    match splitOnPat eqc op s with
    | none => []
    | some (_, rest) =>
      match splitOnPat eqc cl (rest.drop op.length) with
      | none => []
      | some (mid, rest2) =>
        (rest.take op.length ++ mid ++ rest2.take cl.length) ::
          delimGo eqc op cl fuel (rest2.drop cl.length)

/-- All `op … cl` regions of `s`, in order, non-overlapping. -/
def delimRegions (eqc : Char → Char → Bool) (op cl s : List Char) :
    List (List Char) := delimGo eqc op cl s.length s

/-- For `/\((.*?)\)/g`: from a position just after an opening parenthesis,
take characters up to the first `)`; fails if a line terminator intervenes
(`.` does not match line terminators) or no `)` follows. -/
def takeUntilClose : List Char → Option (List Char × List Char)
  | [] => none
  | c :: cs =>
    if c.toNat = 41 then some ([], cs)
    else if isLineTermChar c then none
    else
      match takeUntilClose cs with
      | some (a, b) => some (c :: a, b)
      | none => none

/-- Global scan for `/\((.*?)\)/g`; each emitted chunk is the full match
including both parentheses, as the source passes the full match to
`replace(/[()]/g, '')`. -/
def parenGo : Nat → List Char → List (List Char)
  | 0, _ => []
  | _ + 1, [] => []
  | fuel + 1, c :: cs =>
    if c.toNat = 40 then
      match takeUntilClose cs with
      | some (content, rest) =>
        (c :: (content ++ [Char.ofNat 41])) :: parenGo fuel rest
      | none => parenGo fuel cs
    else parenGo fuel cs

/-- All parenthesized literal matches of a region. -/
def parenLits (r : List Char) : List (List Char) := parenGo r.length r

/-- Global scan for `` new RegExp(`${kw}\\s*\\(([^)]+)\\)`, 'gi') ``: at each
occurrence of the keyword (case-insensitive) skip whitespace, require `(`,
then one or more non-`)` characters followed by `)`; emits the capture
group.  On failure the engine advances one character. -/
def kwScan (kw : List Char) : Nat → List Char → List (List Char)
  | 0, _ => []
  | _ + 1, [] => []
  | fuel + 1, c :: cs =>
    if matchesHere eqCI kw (c :: cs) then
      match ((c :: cs).drop kw.length).dropWhile jsIsWs with
      | d :: t =>
        if d.toNat = 40 then
          if (t.takeWhile (fun x => decide (x.toNat ≠ 41))).length < t.length ∧
              t.takeWhile (fun x => decide (x.toNat ≠ 41)) ≠ [] then
            t.takeWhile (fun x => decide (x.toNat ≠ 41)) ::
              kwScan kw fuel
                (t.drop ((t.takeWhile (fun x => decide (x.toNat ≠ 41))).length + 1))
          else kwScan kw fuel cs
        else kwScan kw fuel cs
      | [] => kwScan kw fuel cs
    else kwScan kw fuel cs

/-- Maximal runs of blind-class characters; runs of length ≥ 15 are kept
(the `/[a-zA-Z\s.,!?;:'"()-]{15,}/g` scan of Method 4).  The accumulator
holds the current run reversed. -/
def runsAux : List Char → List Char → List (List Char)
  | [], acc => if 15 ≤ acc.length then [acc.reverse] else []
  | c :: cs, acc =>
    if isBlindChar c = true then runsAux cs (c :: acc)
    else (if 15 ≤ acc.length then [acc.reverse] else []) ++ runsAux cs []

/-- The Method 4 match list (`fullText.match(/[a-zA-Z\s.,!?;:'"()-]{15,}/g)`;
an empty result models the `null` return). -/
def blindRuns (s : List Char) : List (List Char) := runsAux s []

/-! ### The heuristic cascade of supabase/functions/parse-pdf/index.ts -/

/-- Model of `text.replace(/[()]/g, '').trim()` applied to a parenthesized literal. -/
def cleanLit (x : List Char) : List Char :=
  jsTrim (x.filter (fun c => !(c.toNat = 40 || c.toNat = 41)))

/-- The keep test of Methods 2, 3 and 5:
`cleanText.length > 0 && /[a-zA-Z]/.test(cleanText)`. -/
def cleanKeep (x : List Char) : Option (List Char) :=
  if 0 < (cleanLit x).length ∧ hasLetter (cleanLit x) = true then
    some (cleanLit x)
  else none

/-- The inner `match.match(/\((.*?)\)/)` of Method 6 applied to a keyword
capture: with no line terminator in the capture the re-match returns the
capture itself; otherwise the lazy dot (which cannot cross line terminators)
makes the re-match restart at the first `(` after the last line terminator,
capturing what follows it; with no such `(` the re-match fails. -/
def kwCapture (content : List Char) : Option (List Char) :=
  if content.any isLineTermChar then
    match (content.reverse.takeWhile (fun c => !isLineTermChar c)).reverse.dropWhile
        (fun c => decide (c.toNat ≠ 40)) with
    | _ :: u => some u
    | [] => none
  else some content

/-- The keep test of Method 6: re-match the literal, then
`cleanText.length > 0 && /[a-zA-Z]/.test(cleanText)` on its trimmed form
(an empty capture is falsy and also skipped). -/
def kwKeep (content : List Char) : Option (List Char) :=
  match kwCapture content with
  | none => none
  | some cap =>
    if 0 < (jsTrim cap).length ∧ hasLetter (jsTrim cap) = true then
      some (jsTrim cap)
    else none

/-- The accumulation loop `extractedText += cleanText + ' '` shared by the
structurally-targeted stages: each kept fragment is appended followed by a
space. -/
def keepAppend (f : List Char → Option (List Char)) :
    List (List Char) → List Char
  | [] => []
  | x :: xs =>
    match f x with
    | some w => w ++ ' ' :: keepAppend f xs
    | none => keepAppend f xs

/-- Method 2: literals inside `BT…ET` text objects. -/
def btStage (s : List Char) : List Char :=
  keepAppend cleanKeep
    (((delimRegions eqCS "BT".data "ET".data s).map parenLits).flatten)

/-- Method 3: literals inside `stream…endstream` regions (case-insensitive
delimiters, flag `i`). -/
def streamStage (s : List Char) : List Char :=
  keepAppend cleanKeep
    (((delimRegions eqCI "stream".data "endstream".data s).map parenLits).flatten)

/-- Method 5: literals inside `<<…>>` dictionary regions. -/
def dictStage (s : List Char) : List Char :=
  keepAppend cleanKeep
    (((delimRegions eqCS "<<".data ">>".data s).map parenLits).flatten)

/-- The keyword list of Method 6, iterated in source order. -/
def kwList : List (List Char) :=
  ["/Text".data, "/Contents".data, "/Page".data, "/Font".data]

/-- Method 6: literals following the structural keywords. -/
def kwStage (s : List Char) : List Char :=
  keepAppend kwKeep ((kwList.map (fun kw => kwScan kw s.length s)).flatten)

/-- Method 4's assembled text: `readableText.join(' ')
.replace(/\s+/g, ' ').trim()`. -/
def blindJoinText (rs : List (List Char)) : List Char :=
  jsTrim (collapseWs (joinSpace rs))

/-- Method 4 as a stage function: empty when `match` returned null. -/
def blindStage (s : List Char) : List Char :=
  if blindRuns s = [] then [] else blindJoinText (blindRuns s)

/-- State of `extractedText` after Method 2. -/
def afterBT (s : List Char) : List Char := btStage s

/-- State of `extractedText` after Method 3 (runs only when the total so far is
blank, and appends). -/
def afterStream (s : List Char) : List Char :=
  if jsTrim (afterBT s) = [] then afterBT s ++ streamStage s else afterBT s

/-- State of `extractedText` after Method 4 (runs only when blank; assigns the joined
runs when the match was non-null). -/
def afterBlind (s : List Char) : List Char :=
  if jsTrim (afterStream s) = [] then
    if blindRuns s = [] then afterStream s else blindJoinText (blindRuns s)
  else afterStream s

/-- State of `extractedText` after Method 5. -/
def afterDict (s : List Char) : List Char :=
  if jsTrim (afterBlind s) = [] then afterBlind s ++ dictStage s
  else afterBlind s

/-- State of `extractedText` after Method 6: the raw cascade output, before the
clean-up, length-threshold and fallback-message steps. -/
def rawCascade (s : List Char) : List Char :=
  if jsTrim (afterDict s) = [] then afterDict s ++ kwStage s else afterDict s

/-- Running an explicit ordered list of stages, each consulted only when
every earlier one yielded a blank result (the reimplementation shape
described by the specification). -/
def cascadeOrder : List (List Char → List Char) → List Char → List Char
  | [], _ => []
  | st :: rest, s => if jsTrim (st s) = [] then cascadeOrder rest s else st s

/-- Modelled from the spec: the stage order asserted by the claim —
text objects, streams, dictionaries, keyword literals, and the blind
ASCII-run scan last. -/
def specOrderedCascade (s : List Char) : List Char :=
  cascadeOrder [btStage, streamStage, dictStage, kwStage, blindStage] s

/-- The clean-up applied when the cascade found something:
`replace(/\s+/g, ' ')`, `replace(/[^\x20-\x7E]/g, ' ')`,
`replace(/\s+/g, ' ')`, `trim()`, then blanked when under 50 characters. -/
def cleanupText (e : List Char) : List Char :=
  if (jsTrim (collapseWs (mapPrintable (collapseWs e)))).length < 50 then []
  else jsTrim (collapseWs (mapPrintable (collapseWs e)))

/-- Head of the fallback template literal, split at its first character for
the trimming proof. -/
def fbPreTail : List Char := "nable to extract readable text from \"".data

/-- Prefix chosen so that `fbPre ++ fileName` reproduces
`Unable to extract readable text from "` + fileName. -/
def fbPre : List Char := 'U' :: fbPreTail

/-- Body of the fallback template literal between the file name and the
final period. -/
def fbTail : List Char :=
  ("\". This PDF might be:\n        \n" ++
   "1. Image-based (scanned document) - Try using OCR software to convert to text\n" ++
   "2. Encrypted or password-protected - Ensure the PDF is unlocked\n" ++
   "3. Corrupted - Try opening in a PDF reader to verify it's valid\n" ++
   "4. Contains only images - Convert to text format or use text-based PDFs\n\n" ++
   "Please try uploading a text file (.txt) or a PDF with selectable text content").data

/-- The full fallback message written into `extractedText` when every
method yielded nothing. -/
def fallbackText (fileName : List Char) : List Char :=
  fbPre ++ fileName ++ (fbTail ++ ['.'])

/-- The part of the fallback body before the words `Image-based`. -/
def fbImgPre : List Char := "\". This PDF might be:\n        \n1. ".data

/-- The part of the fallback body after the words `Image-based`. -/
def fbImgPost : List Char :=
  (" (scanned document) - Try using OCR software to convert to text\n" ++
   "2. Encrypted or password-protected - Ensure the PDF is unlocked\n" ++
   "3. Corrupted - Try opening in a PDF reader to verify it's valid\n" ++
   "4. Contains only images - Convert to text format or use text-based PDFs\n\n" ++
   "Please try uploading a text file (.txt) or a PDF with selectable text content").data

/-- The parse-pdf handler body after UTF-8 decoding (the `TextDecoder` with
`fatal: false` never throws): the cascade, the clean-up with its 50-character
threshold, the fallback message, and the response
`{ text: extractedText.trim(), success: true }` as (text, success). -/
def parsePdf (fileName s : List Char) : List Char × Bool :=
  (jsTrim
    (if jsTrim (if jsTrim (rawCascade s) = [] then rawCascade s
                else cleanupText (rawCascade s)) = [] then
      fallbackText fileName
     else if jsTrim (rawCascade s) = [] then rawCascade s
     else cleanupText (rawCascade s)),
   true)

/-! ### The client library src/lib/text-extraction.ts -/

/-- Outcome of an awaited external-library call: the resolved value, or the
message of the thrown `Error` caught by the surrounding `catch`. -/
inductive JsOutcome (α : Type) where
  | ok : α → JsOutcome α
  | thrown : List Char → JsOutcome α
deriving DecidableEq

/-- An upload request as the extractor sees it: declared MIME type, file
name, and the behaviour of the three external decoders on this file --
`file.text()`, pdf.js (`ok` carries the pages, each a list of item strings),
and mammoth (`ok` carries `result.value`). -/
structure JsFile where
  name : List Char
  type : List Char
  textOutcome : JsOutcome (List Char)
  pdfOutcome : JsOutcome (List (List (List Char)))
  docxOutcome : JsOutcome (List Char)
deriving DecidableEq

/-- The `TextExtractionResult` interface. -/
structure TextExtractionResult where
  text : List Char
  success : Bool
  error : Option (List Char) := none
  pageCount : Option Nat := none
deriving DecidableEq

/-- Model of `extractTextFromTXT`: trim the decoded text and succeed; a thrown read
error is caught into a failure result with empty text. -/
def extractTextFromTXT (f : JsFile) : TextExtractionResult :=
  match f.textOutcome with
  | .ok t => { text := jsTrim t, success := true }
  | .thrown m => { text := [], success := false, error := some m }

/-- Model of `.replace(/\n\s*\n/g, '\n')`: a match runs from a LF through the maximal
following whitespace run, which must contain another LF, ending at the last
LF of that run; replaced by a single LF.  Fueled scan; each step consumes at
least one character, so the input length suffices as fuel. -/
def nlAux : Nat → List Char → List Char
  | 0, s => s
  | _ + 1, [] => []
  | fuel + 1, c :: cs =>
    if c.toNat = 10 then
      if (cs.takeWhile jsIsWs).any (fun x => decide (x.toNat = 10)) then
        c :: nlAux fuel
          (cs.drop ((cs.takeWhile jsIsWs).length -
            ((cs.takeWhile jsIsWs).reverse.takeWhile
              (fun x => decide (x.toNat ≠ 10))).length))
      else c :: nlAux fuel cs
    else c :: nlAux fuel cs

/-- Model of `.replace(/\n\s*\n/g, '\n')` on a whole string. -/
def nlCollapse (s : List Char) : List Char := nlAux s.length s

/-- Model of `extractTextFromPDF`: concatenate per-page text (items joined by a
space, pages separated by two LFs), normalise whitespace, collapse blank
lines, trim; report the page count.  A thrown pdf.js error is caught into a
failure result with empty text. -/
def extractTextFromPDF (f : JsFile) : TextExtractionResult :=
  match f.pdfOutcome with
  | .ok pages =>
    { text := jsTrim (nlCollapse (collapseWs
        (pages.foldl (fun acc items => acc ++ joinSpace items ++ ['\n', '\n']) []))),
      success := true,
      pageCount := some pages.length }
  | .thrown m => { text := [], success := false, error := some m }

/-- Model of `extractTextFromDOCX`: trim `result.value` from mammoth; a thrown error
is caught into a failure result with empty text. -/
def extractTextFromDOCX (f : JsFile) : TextExtractionResult :=
  match f.docxOutcome with
  | .ok v => { text := jsTrim v, success := true }
  | .thrown m => { text := [], success := false, error := some m }

/-- Model of `file.name.toLowerCase().endsWith(suf)`. -/
def endsWithLower (name suf : List Char) : Bool :=
  List.isSuffixOf suf (name.map lowerChar)

/-- The DOCX MIME type string tested by the dispatcher. -/
def docxMime : List Char :=
  "application/vnd.openxmlformats-officedocument.wordprocessingml.document".data

/-- The unsupported-format message. -/
def unsupportedText : List Char :=
  "Unsupported file type. Please upload a TXT, PDF, or DOCX file.".data

/-- Model of `extractTextFromFile`: the dispatch chain of the source, testing in
order txt, pdf, docx, each by declared MIME type or lower-cased file-name
suffix. -/
def extractTextFromFile (f : JsFile) : TextExtractionResult :=
  if f.type = "text/plain".data ∨ endsWithLower f.name ".txt".data = true then
    extractTextFromTXT f
  else if f.type = "application/pdf".data ∨
      endsWithLower f.name ".pdf".data = true then
    extractTextFromPDF f
  else if f.type = docxMime ∨ endsWithLower f.name ".docx".data = true then
    extractTextFromDOCX f
  else { text := [], success := false, error := some unsupportedText }

/-- Model of `isValidExtractedText`: false on empty or whitespace-only text,
otherwise requires a readable-character fraction strictly above 0.7 (the
real-number comparison `readableChars / totalChars > 0.7` is modelled
exactly as `10 * readableChars > 7 * totalChars`) and length strictly above
10. -/
def isValidExtractedText (t : List Char) : Bool :=
  if t = [] ∨ (jsTrim t).length = 0 then false
  else
    decide (7 * t.length < 10 * (t.filter isReadableChar).length) &&
      decide (10 < t.length)

/-- The acceptance gate of `FileUpload.processFile`: an extraction result is
passed on only when it succeeded and its text passes the validator. -/
def processAccepts (r : TextExtractionResult) : Bool :=
  r.success && isValidExtractedText r.text

/-! ### Concrete inputs used by counterexamples and witnesses -/

/-- A PDF-style fragment containing a dictionary literal: every blind-class
character run inside it is long, so Method 4 and Method 5 disagree on it. -/
def exC3 : List Char :=
  "<<(Hello there my good friend this is a long literal string indeed)>>".data

/-- An empty plain-text upload: `file.text()` resolves to the empty string. -/
def emptyTxtFile : JsFile :=
  { name := "notes.txt".data, type := "text/plain".data,
    textOutcome := .ok [], pdfOutcome := .thrown [], docxOutcome := .thrown [] }

/-- A plain-text upload with meaningful content. -/
def goodTxtFile : JsFile :=
  { name := "m.txt".data, type := "text/plain".data,
    textOutcome := .ok "hello world, this is a transcript".data,
    pdfOutcome := .thrown [], docxOutcome := .thrown [] }

/-- A file whose declared MIME type (PDF) and file-name suffix (.txt)
indicate different recognized formats, with oracles chosen so the two
extractors give different texts. -/
def mismatchFile : JsFile :=
  { name := "a.txt".data, type := "application/pdf".data,
    textOutcome := .ok "hello there friend".data,
    pdfOutcome := .ok [["different text".data]], docxOutcome := .thrown [] }

/-- A PDF upload on which pdf.js throws. -/
def badPdfFile : JsFile :=
  { name := "b.pdf".data, type := "application/pdf".data,
    textOutcome := .ok [], pdfOutcome := .thrown "Invalid PDF structure".data,
    docxOutcome := .thrown [] }

/-- An upload of an unrecognized format. -/
def unknownFile : JsFile :=
  { name := "img.png".data, type := "image/png".data,
    textOutcome := .ok "x".data, pdfOutcome := .thrown [],
    docxOutcome := .thrown [] }

/-! ### Helper lemmas -/

/-- If trimming yields the empty string, every character was whitespace. -/
theorem jsTrim_nil_all_ws (l : List Char) (h : jsTrim l = []) :
    ∀ c ∈ l, jsIsWs c = true := by
  unfold jsTrim at h
  rw [List.reverse_eq_nil_iff, List.dropWhile_eq_nil_iff] at h
  have h2 : ∀ a ∈ l.dropWhile jsIsWs, jsIsWs a = true := fun a ha =>
    h a (List.mem_reverse.mpr ha)
  intro c hc
  rw [← List.takeWhile_append_dropWhile jsIsWs l] at hc
  rcases List.mem_append.mp hc with h3 | h3
  · exact List.mem_takeWhile_imp h3
  · exact h2 c h3

/-- A `dropWhile p` result whose members all satisfy `p` is empty. -/
theorem dropWhile_all_nil (p : Char → Bool) (u : List Char)
    (h : ∀ c ∈ u.dropWhile p, p c = true) : u.dropWhile p = [] := by
  induction u with
  | nil => rfl
  | cons a t ih =>
    by_cases hp : p a = true
    · rw [List.dropWhile_cons, if_pos hp] at h ⊢
      exact ih h
    · rw [List.dropWhile_cons, if_neg hp] at h
      exact absurd (h a (List.mem_cons_self a t)) hp

/-- Trimming is idempotent in the direction needed here: if the trim of a
trimmed string is empty, the trimmed string already was. -/
theorem jsTrim_trim_nil (u : List Char) (h : jsTrim (jsTrim u) = []) :
    jsTrim u = [] := by
  have hall := jsTrim_nil_all_ws _ h
  rw [jsTrim, List.reverse_eq_nil_iff]
  apply dropWhile_all_nil
  intro c hc
  exact hall c (by rw [jsTrim]; exact List.mem_reverse.mpr hc)

/-- ASCII letters are not JavaScript whitespace. -/
theorem letter_not_ws (c : Char) (h : isAsciiLetter c = true) :
    jsIsWs c = false := by
  rw [isAsciiLetter, decide_eq_true_eq] at h
  rw [jsIsWs, wsNat, decide_eq_false_iff_not]
  omega

/-- A fragment-appending loop whose keep test guarantees a letter in every
kept fragment produces either the empty string or a string with non-blank
trim; hence a blank total means no fragment was kept. -/
theorem keepAppend_nil (f : List Char → Option (List Char))
    (hf : ∀ x w, f x = some w → hasLetter w = true) :
    ∀ xs, jsTrim (keepAppend f xs) = [] → keepAppend f xs = [] := by
  intro xs
  induction xs with
  | nil => intro _; rfl
  | cons x t ih =>
    intro h
    cases hx : f x with
    | none =>
      simp only [keepAppend, hx] at h ⊢
      exact ih h
    | some w =>
      exfalso
      have hl := hf x w hx
      rw [hasLetter, List.any_eq_true] at hl
      obtain ⟨c, hc, hlc⟩ := hl
      have hmem : c ∈ keepAppend f (x :: t) := by
        simp only [keepAppend, hx]
        exact List.mem_append.mpr (Or.inl hc)
      have hws := jsTrim_nil_all_ws _ h c hmem
      rw [letter_not_ws c hlc] at hws
      exact Bool.false_ne_true hws

/-- Fragments kept by the Methods 2/3/5 test contain a letter. -/
theorem cleanKeep_letter : ∀ x w, cleanKeep x = some w → hasLetter w = true := by
  intro x w h
  rw [cleanKeep] at h
  by_cases hc : 0 < (cleanLit x).length ∧ hasLetter (cleanLit x) = true
  · rw [if_pos hc] at h
    cases h
    exact hc.2
  · rw [if_neg hc] at h
    exact absurd h (by simp)

/-- Fragments kept by the Method 6 test contain a letter. -/
theorem kwKeep_letter : ∀ x w, kwKeep x = some w → hasLetter w = true := by
  intro x w h
  rw [kwKeep] at h
  cases hcap : kwCapture x with
  | none =>
    simp only [hcap] at h
    exact absurd h (by simp)
  | some cap =>
    simp only [hcap] at h
    by_cases hc : 0 < (jsTrim cap).length ∧ hasLetter (jsTrim cap) = true
    · rw [if_pos hc] at h
      cases h
      exact hc.2
    · rw [if_neg hc] at h
      exact absurd h (by simp)

/-- A blank Method 2 total is the empty string. -/
theorem btStage_nil (s : List Char) (h : jsTrim (btStage s) = []) :
    btStage s = [] := keepAppend_nil _ cleanKeep_letter _ h

/-- A blank Method 3 total is the empty string. -/
theorem streamStage_nil (s : List Char) (h : jsTrim (streamStage s) = []) :
    streamStage s = [] := keepAppend_nil _ cleanKeep_letter _ h

/-- A blank Method 5 total is the empty string. -/
theorem dictStage_nil (s : List Char) (h : jsTrim (dictStage s) = []) :
    dictStage s = [] := keepAppend_nil _ cleanKeep_letter _ h

/-- A blank Method 6 total is the empty string. -/
theorem kwStage_nil (s : List Char) (h : jsTrim (kwStage s) = []) :
    kwStage s = [] := keepAppend_nil _ kwKeep_letter _ h

/-- A blank Method 4 total is the empty string (its text ends in `trim()`). -/
theorem blindStage_nil (s : List Char) (h : jsTrim (blindStage s) = []) :
    blindStage s = [] := by
  rw [blindStage] at h ⊢
  by_cases hr : blindRuns s = []
  · rw [if_pos hr]
  · rw [if_neg hr] at h ⊢
    rw [blindJoinText] at h ⊢
    exact jsTrim_trim_nil _ h

/-- Claim C3 (amended): the cascade of the parse-pdf handler is equivalent
to running the stages in the fixed order text objects (BT…ET), streams,
blind ASCII-run scan, dictionaries, keyword literals — each later stage
consulted only when every earlier one yielded a blank result.  The blind
scan is thus the third stage, before the dictionary and keyword stages, not
the last. -/
theorem cascade_true_order : ∀ s, rawCascade s =
    cascadeOrder [btStage, streamStage, blindStage, dictStage, kwStage] s := by
  have jsTrim_nil : jsTrim [] = [] := rfl
  intro s
  by_cases h1 : jsTrim (btStage s) = []
  · have hbt : btStage s = [] := btStage_nil s h1
    have hA : afterStream s = streamStage s := by
      simp [afterStream, afterBT, h1, hbt, jsTrim_nil]
    by_cases h2 : jsTrim (streamStage s) = []
    · have hstr : streamStage s = [] := streamStage_nil s h2
      have hB : afterBlind s = blindStage s := by
        simp [afterBlind, hA, h2, hstr, blindStage, jsTrim_nil]
      by_cases h3 : jsTrim (blindStage s) = []
      · have hbl : blindStage s = [] := blindStage_nil s h3
        have hC : afterDict s = dictStage s := by
          simp [afterDict, hB, h3, hbl, jsTrim_nil]
        by_cases h4 : jsTrim (dictStage s) = []
        · have hd : dictStage s = [] := dictStage_nil s h4
          have hD : rawCascade s = kwStage s := by
            simp [rawCascade, hC, h4, hd, jsTrim_nil]
          by_cases h5 : jsTrim (kwStage s) = []
          · rw [hD, kwStage_nil s h5]
            simp [cascadeOrder, h1, h2, h3, h4, h5]
          · rw [hD]
            simp [cascadeOrder, h1, h2, h3, h4, h5]
        · have hD : rawCascade s = dictStage s := by
            simp [rawCascade, hC, h4]
          rw [hD]
          simp [cascadeOrder, h1, h2, h3, h4]
      · have hD : rawCascade s = blindStage s := by
          simp [rawCascade, afterDict, hB, h3]
        rw [hD]
        simp [cascadeOrder, h1, h2, h3]
    · have hD : rawCascade s = streamStage s := by
        simp [rawCascade, afterDict, afterBlind, hA, h2]
      rw [hD]
      simp [cascadeOrder, h1, h2]
  · have hD : rawCascade s = btStage s := by
      simp [rawCascade, afterDict, afterBlind, afterStream, afterBT, h1]
    rw [hD]
    simp [cascadeOrder, h1]

/-- Claim C3 (counterexample): on a dictionary-only input the code's cascade
answers with the blind ASCII-run scan (Method 4, parentheses kept), while
the order asserted by the claim — blind scan last — would answer with the
dictionary stage (parentheses stripped); the two outputs differ. -/
theorem cascade_order_counterexample :
    rawCascade exC3 = blindStage exC3 ∧
    specOrderedCascade exC3 = dictStage exC3 ∧
    rawCascade exC3 ≠ specOrderedCascade exC3 :=
  ⟨by decide, by decide, by decide⟩

/-- Claim C2: the Validator returns true exactly when the trimmed text is
non-empty, the readable-character fraction strictly exceeds 0.70, and the
length strictly exceeds 10; with the four concrete values of the spec:
empty string, twelve letters, the twelve control bytes 0x00–0x0B, and
"hi". -/
theorem isValid_spec :
    (∀ t : List Char, isValidExtractedText t =
      (!(jsTrim t).isEmpty &&
        (decide (7 * t.length < 10 * (t.filter isReadableChar).length) &&
          decide (10 < t.length)))) ∧
    isValidExtractedText [] = false ∧
    isValidExtractedText (List.replicate 12 'a') = true ∧
    isValidExtractedText ((List.range 12).map Char.ofNat) = false ∧
    isValidExtractedText "hi".data = false := by
  refine ⟨?_, by decide, by decide, by decide, by decide⟩
  intro t
  by_cases h1 : t = []
  · subst h1; decide
  · by_cases h2 : (jsTrim t).length = 0
    · rw [isValidExtractedText, if_pos (Or.inr h2)]
      rw [List.length_eq_zero] at h2
      simp [h2]
    · rw [isValidExtractedText, if_neg (not_or.mpr ⟨h1, h2⟩)]
      cases hj : jsTrim t with
      | nil => exact absurd (by rw [hj]; rfl) h2
      | cons a l => simp [hj]

/-- Claim C10: in the structurally-targeted stages a parenthesized literal
is kept only if, after stripping parentheses and trimming, it is non-empty
and contains an ASCII letter: the Methods 2/3/5 loop equals a filter by
exactly that test over the cleaned literals, and every fragment kept by the
Method 6 test is non-empty with a letter. -/
theorem kept_literal_filter :
    (∀ chunks : List (List Char),
      keepAppend cleanKeep chunks =
        ((chunks.map cleanLit).filter
            (fun c => decide (0 < c.length) && hasLetter c)).foldr
          (fun w acc => w ++ ' ' :: acc) []) ∧
    (∀ x w, kwKeep x = some w → w ≠ [] ∧ hasLetter w = true) := by
  constructor
  · intro chunks
    induction chunks with
    | nil => rfl
    | cons x t ih =>
      by_cases hp : 0 < (cleanLit x).length ∧ hasLetter (cleanLit x) = true
      · have hck : cleanKeep x = some (cleanLit x) := by rw [cleanKeep, if_pos hp]
        have hb : (decide (0 < (cleanLit x).length) && hasLetter (cleanLit x)) =
            true := by
          rw [Bool.and_eq_true]
          exact ⟨decide_eq_true hp.1, hp.2⟩
        simp [keepAppend, hck, hb, ih, List.filter_cons]
      · have hck : cleanKeep x = none := by rw [cleanKeep, if_neg hp]
        have hb : (decide (0 < (cleanLit x).length) && hasLetter (cleanLit x)) =
            false := by
          rcases Bool.eq_false_or_eq_true
            (decide (0 < (cleanLit x).length) && hasLetter (cleanLit x)) with hB | hB
          · rw [Bool.and_eq_true, decide_eq_true_eq] at hB
            exact absurd hB hp
          · exact hB
        simp [keepAppend, hck, hb, ih, List.filter_cons]
  · intro x w h
    rw [kwKeep] at h
    cases hcap : kwCapture x with
    | none =>
      simp only [hcap] at h
      exact absurd h (by simp)
    | some cap =>
      simp only [hcap] at h
      by_cases hc : 0 < (jsTrim cap).length ∧ hasLetter (jsTrim cap) = true
      · rw [if_pos hc] at h
        cases h
        exact ⟨List.length_pos.mp hc.1, hc.2⟩
      · rw [if_neg hc] at h
        exact absurd h (by simp)

/-- The `dropWhile` of a list whose head fails the predicate is the list. -/
theorem dropWhile_cons_false (p : Char → Bool) (c : Char) (l : List Char)
    (h : p c = false) : (c :: l).dropWhile p = c :: l := by
  rw [List.dropWhile_cons]
  simp [h]

/-- The fallback message starts with `U` and ends with `.`, so trimming it
is the identity. -/
theorem fallback_trim (name : List Char) :
    jsTrim (fallbackText name) = fallbackText name := by
  have h1 : List.dropWhile jsIsWs (fallbackText name) = fallbackText name := by
    rw [fallbackText, fbPre, List.cons_append]
    exact dropWhile_cons_false _ _ _ (by decide)
  have h2 : (fallbackText name).reverse =
      '.' :: (fbPre ++ name ++ fbTail).reverse := by
    rw [fallbackText,
      show fbPre ++ name ++ (fbTail ++ ['.']) =
        (fbPre ++ name ++ fbTail) ++ ['.'] by simp,
      List.reverse_append]
    rfl
  rw [jsTrim, h1, h2, dropWhile_cons_false _ _ _ (by decide),
    List.reverse_cons, List.reverse_reverse, fallbackText]
  simp

set_option maxRecDepth 100000 in
/-- The fallback body decomposes around the words `Image-based`. -/
theorem fbTail_split : fbImgPre ++ "Image-based".data ++ fbImgPost = fbTail := by
  decide

/-- Claim C4 (amended): whenever the cascade's post-cleanup text is blank —
every stage yielded nothing, or the cleaned-up fragment total fell under the
50-character threshold — the parse-pdf handler does not fail; it returns
`success = true` with `text` set to the explanatory fallback message, which
names image-based (scanned) content among the likely causes. -/
theorem parsePdf_fallback (fileName s : List Char)
    (h : jsTrim (if jsTrim (rawCascade s) = [] then rawCascade s
      else cleanupText (rawCascade s)) = []) :
    (parsePdf fileName s).2 = true ∧
    (parsePdf fileName s).1 = fallbackText fileName ∧
    List.IsInfix "Image-based".data (parsePdf fileName s).1 := by
  have hpair : parsePdf fileName s = (fallbackText fileName, true) := by
    rw [parsePdf, if_pos h, fallback_trim]
  have h1 : List.IsInfix "Image-based".data fbTail :=
    ⟨fbImgPre, fbImgPost, fbTail_split⟩
  have h2 : fbTail <:+: fallbackText fileName := by
    have hsuf : fbTail ++ ['.'] <:+ fallbackText fileName :=
      List.suffix_append (fbPre ++ fileName) (fbTail ++ ['.'])
    exact List.IsInfix.trans ⟨[], ['.'], by simp⟩ hsuf.isInfix
  exact ⟨by rw [hpair], by rw [hpair], by rw [hpair]; exact h1.trans h2⟩

set_option maxRecDepth 100000 in
set_option maxHeartbeats 1000000 in
/-- Claim C4 (counterexample): a PDF with no text-show operators and no
recoverable ASCII runs (here the four bytes `%PDF`) makes every cascade
stage yield nothing, yet the handler reports `success = true`, with the
fallback message as the extracted text — not a failure result. -/
theorem scanned_pdf_reports_success :
    jsTrim (rawCascade "%PDF".data) = [] ∧
    (parsePdf "scan.pdf".data "%PDF".data).2 = true ∧
    (parsePdf "scan.pdf".data "%PDF".data).1 =
      fallbackText "scan.pdf".data :=
  ⟨by decide, rfl, by decide⟩

set_option maxRecDepth 100000 in
set_option maxHeartbeats 1000000 in
/-- Witness for the amended C4 at a concrete scanned-style input. -/
theorem parsePdf_fallback_witness :
    (parsePdf "scan.pdf".data "%PDF".data).2 = true ∧
    (parsePdf "scan.pdf".data "%PDF".data).1 = fallbackText "scan.pdf".data ∧
    List.IsInfix "Image-based".data (parsePdf "scan.pdf".data "%PDF".data).1 :=
  parsePdf_fallback "scan.pdf".data "%PDF".data (by decide)

/-- Validated text is non-empty. -/
theorem isValid_ne_nil (t : List Char) (h : isValidExtractedText t = true) :
    t ≠ [] := by
  intro hnil
  rw [hnil] at h
  exact absurd h (by decide)

/-- Claim C1 (counterexample): an empty plain-text upload decodes to the
empty string, and the extractor reports `success = true` with empty text,
which fails the Validator — the claimed invariant does not hold of the
extraction result alone. -/
theorem empty_txt_breaks_invariant :
    (extractTextFromFile emptyTxtFile).success = true ∧
    (extractTextFromFile emptyTxtFile).text = [] ∧
    isValidExtractedText (extractTextFromFile emptyTxtFile).text = false := by
  decide

/-- Claim C1 (amended): `succeeded = true` alone does not imply readability;
the invariant holds of every result the upload pipeline accepts, since
`processFile` additionally gates on the Validator: an accepted result has
non-empty text that passes the readability check. -/
theorem accepted_results_readable (f : JsFile)
    (h : processAccepts (extractTextFromFile f) = true) :
    (extractTextFromFile f).text ≠ [] ∧
    isValidExtractedText (extractTextFromFile f).text = true := by
  rw [processAccepts, Bool.and_eq_true] at h
  exact ⟨isValid_ne_nil _ h.2, h.2⟩

/-- Witness for the amended C1 at a concrete accepted upload. -/
theorem accepted_results_readable_witness :
    (extractTextFromFile goodTxtFile).text ≠ [] ∧
    isValidExtractedText (extractTextFromFile goodTxtFile).text = true :=
  accepted_results_readable goodTxtFile (by decide)

/-- Claim C5: a plain-text request whose bytes decode (modelled by a
resolved `file.text()` oracle) with non-blank content extracts successfully
to exactly the trimmed decoded content. -/
theorem txt_extract_trimmed (f : JsFile) (content : List Char)
    (hdisp : f.type = "text/plain".data ∨ endsWithLower f.name ".txt".data = true)
    (hok : f.textOutcome = .ok content) (_hne : jsTrim content ≠ []) :
    extractTextFromFile f = { text := jsTrim content, success := true } := by
  rw [extractTextFromFile, if_pos hdisp, extractTextFromTXT, hok]

/-- Witness for C5 at a concrete plain-text upload. -/
theorem txt_extract_trimmed_witness :
    extractTextFromFile goodTxtFile =
      { text := jsTrim "hello world, this is a transcript".data,
        success := true } :=
  txt_extract_trimmed goodTxtFile "hello world, this is a transcript".data
    (Or.inl rfl) rfl (by decide)

/-- Claim C6: every thrown decoding error is caught and translated into a
`success = false` result carrying the error message as the descriptive
reason — for each per-format extractor, and through the dispatcher for a
PDF request with an invalid buffer; nothing escapes as an exception. -/
theorem extract_catches_thrown (f : JsFile) (m : List Char) :
    (f.textOutcome = .thrown m →
      extractTextFromTXT f = { text := [], success := false, error := some m }) ∧
    (f.pdfOutcome = .thrown m →
      extractTextFromPDF f = { text := [], success := false, error := some m }) ∧
    (f.docxOutcome = .thrown m →
      extractTextFromDOCX f = { text := [], success := false, error := some m }) ∧
    (¬(f.type = "text/plain".data ∨ endsWithLower f.name ".txt".data = true) →
      (f.type = "application/pdf".data ∨ endsWithLower f.name ".pdf".data = true) →
      f.pdfOutcome = .thrown m →
      extractTextFromFile f =
        { text := [], success := false, error := some m }) := by
  refine ⟨?_, ?_, ?_, ?_⟩
  · intro h
    rw [extractTextFromTXT, h]
  · intro h
    rw [extractTextFromPDF, h]
  · intro h
    rw [extractTextFromDOCX, h]
  · intro h1 h2 h3
    rw [extractTextFromFile, if_neg h1, if_pos h2, extractTextFromPDF, h3]

/-- Witness for C6 at a concrete invalid PDF upload. -/
theorem extract_catches_thrown_witness :
    extractTextFromFile badPdfFile =
      { text := [], success := false,
        error := some "Invalid PDF structure".data } :=
  (extract_catches_thrown badPdfFile "Invalid PDF structure".data).2.2.2
    (by decide) (by decide) rfl

/-- Claim C7: a request whose MIME type and (lower-cased) file-name suffix
both fall outside the three supported formats yields the constant
unsupported-format failure; the result does not depend on the payload
oracles, so no extraction strategy runs. -/
theorem unsupported_rejected (f : JsFile)
    (h1 : ¬(f.type = "text/plain".data ∨ endsWithLower f.name ".txt".data = true))
    (h2 : ¬(f.type = "application/pdf".data ∨
      endsWithLower f.name ".pdf".data = true))
    (h3 : ¬(f.type = docxMime ∨ endsWithLower f.name ".docx".data = true)) :
    extractTextFromFile f =
      { text := [], success := false, error := some unsupportedText } := by
  rw [extractTextFromFile, if_neg h1, if_neg h2, if_neg h3]

/-- Witness for C7 at a concrete PNG upload. -/
theorem unsupported_rejected_witness :
    extractTextFromFile unknownFile =
      { text := [], success := false, error := some unsupportedText } :=
  unsupported_rejected unknownFile (by decide) (by decide) (by decide)

/-- Claim C8 (counterexample): a file declaring the recognized, non-generic
MIME type `application/pdf` but named `a.txt` is dispatched by its suffix to
the TXT extractor, not to the PDF extractor the MIME type names — the
declared MIME type does not take priority. -/
theorem suffix_overrides_mime :
    mismatchFile.type = "application/pdf".data ∧
    extractTextFromFile mismatchFile = extractTextFromTXT mismatchFile ∧
    extractTextFromFile mismatchFile ≠ extractTextFromPDF mismatchFile :=
  ⟨rfl, by decide, by decide⟩

/-- Claim C8 (amended): dispatch tests the formats in the fixed order txt,
pdf, docx, each matching on declared MIME type or (case-insensitive)
file-name suffix; in particular a `.txt` suffix routes to the TXT extractor
regardless of the declared MIME type. -/
theorem txt_suffix_decides (f : JsFile)
    (h : endsWithLower f.name ".txt".data = true) :
    extractTextFromFile f = extractTextFromTXT f := by
  rw [extractTextFromFile, if_pos (Or.inr h)]

/-- Witness for the amended C8 at a concrete mismatched upload. -/
theorem txt_suffix_decides_witness :
    extractTextFromFile mismatchFile = extractTextFromTXT mismatchFile :=
  txt_suffix_decides mismatchFile (by decide)

/-- A failed TXT extraction has empty text. -/
theorem txt_fail_empty (f : JsFile)
    (h : (extractTextFromTXT f).success = false) :
    (extractTextFromTXT f).text = [] := by
  cases hx : f.textOutcome <;> simp [extractTextFromTXT, hx] at h ⊢

/-- A failed PDF extraction has empty text. -/
theorem pdf_fail_empty (f : JsFile)
    (h : (extractTextFromPDF f).success = false) :
    (extractTextFromPDF f).text = [] := by
  cases hx : f.pdfOutcome <;> simp [extractTextFromPDF, hx] at h ⊢

/-- A failed DOCX extraction has empty text. -/
theorem docx_fail_empty (f : JsFile)
    (h : (extractTextFromDOCX f).success = false) :
    (extractTextFromDOCX f).text = [] := by
  cases hx : f.docxOutcome <;> simp [extractTextFromDOCX, hx] at h ⊢

/-- A failed dispatch-level extraction has empty text. -/
theorem file_fail_empty (f : JsFile)
    (h : (extractTextFromFile f).success = false) :
    (extractTextFromFile f).text = [] := by
  rw [extractTextFromFile] at h ⊢
  split_ifs at h ⊢ with h1 h2 h3
  · exact txt_fail_empty f h
  · exact pdf_fail_empty f h
  · exact docx_fail_empty f h
  · rfl

/-- Claim C9: every failure result — from each per-format extractor and
from the dispatcher — carries the empty string as its text; no failure
carries partially recovered content. -/
theorem failure_empty_text (f : JsFile) :
    ((extractTextFromTXT f).success = false → (extractTextFromTXT f).text = []) ∧
    ((extractTextFromPDF f).success = false → (extractTextFromPDF f).text = []) ∧
    ((extractTextFromDOCX f).success = false →
      (extractTextFromDOCX f).text = []) ∧
    ((extractTextFromFile f).success = false →
      (extractTextFromFile f).text = []) :=
  ⟨txt_fail_empty f, pdf_fail_empty f, docx_fail_empty f, file_fail_empty f⟩

/-- Witness for C9 at a concrete failing upload. -/
theorem failure_empty_text_witness :
    (extractTextFromFile unknownFile).success = false ∧
    (extractTextFromFile unknownFile).text = [] :=
  ⟨by decide, (failure_empty_text unknownFile).2.2.2 (by decide)⟩

/-- Witness for the Method 6 part of C10 at a concrete literal. -/
theorem kept_literal_filter_witness :
    "abc".data ≠ [] ∧ hasLetter "abc".data = true :=
  kept_literal_filter.2 "abc".data "abc".data (by decide)
